import Mathlib

/-!
Shallow embedding of `src/main.py` (dashcam video compiler).

Durations are rationals (seconds).  External-collaborator calls
(ffprobe duration queries, ffmpeg extraction / concatenation) and the
random choices of `random.uniform` are modelled by explicit oracle
inputs: each candidate file processed by the planning loop carries a
`ClipEnv` record holding the outcome of its probe, the two uniform
draws (as parameters in `[0,1]`), whether extraction succeeded, and the
re-measured duration of the produced clip.
-/

namespace Dashcam

/-- `CLIP_DURATION_RANGE = (3, 5)` from `main.py`. -/
def CLIP_DURATION_RANGE : ℚ × ℚ := (3, 5)

/-- Oracle inputs consumed while processing one selected file:
`srcDuration` is the result of `get_video_duration(video_path)`;
`tLen`, `tStart` parametrise the two `random.uniform` draws
(`uniform a b = a + t * (b - a)` with `t ∈ [0,1]`);
`extractOk` is whether the ffmpeg cut produced a non-empty file;
`remeasure` is the result of `get_video_duration(clip)` on the cut. -/
structure ClipEnv where
  srcDuration : Option ℚ
  tLen : ℚ
  tStart : ℚ
  extractOk : Bool
  remeasure : Option ℚ
deriving DecidableEq, Repr

/-- Embedding of `get_random_clip` (main.py lines 92-147); returns the
requested `(start_time, clip_duration)` pair when a clip file is
produced, `none` on any skip path. -/
def get_random_clip (env : ClipEnv) (r : ℚ × ℚ) : Option (ℚ × ℚ) :=
  match env.srcDuration with
  | none => none
  | some videoDuration =>
    if videoDuration < r.1 then none
    else
      let clipDuration0 := r.1 + env.tLen * (r.2 - r.1)
      let clipDuration := if clipDuration0 ≤ videoDuration then clipDuration0 else videoDuration
      let maxStartTime := videoDuration - clipDuration
      let startTime := env.tStart * maxStartTime
      if env.extractOk then some (startTime, clipDuration) else none

/-- An accepted clip: requested start offset and length, and the
re-measured duration of the produced file (None if re-probe failed). -/
structure Clip where
  startTime : ℚ
  reqLen : ℚ
  measured : Option ℚ
deriving DecidableEq, Repr

/-- The mutable state of the selection loop in `main` (lines 302-320):
accepted clip list, running total duration, skip count. -/
structure PlanState where
  clips : List Clip
  total : ℚ
  skipped : ℕ
deriving DecidableEq, Repr

/-- One iteration of the `for video_path in ... selected_files` loop:
on success append the clip and add its re-measured duration to the
total when that duration is truthy (`if clip_duration:`), otherwise
increment the skip counter. -/
def planStep (st : PlanState) (env : ClipEnv) : PlanState :=
  match get_random_clip env CLIP_DURATION_RANGE with
  | some p =>
    { clips := st.clips ++ [⟨p.1, p.2, env.remeasure⟩]
      total :=
        match env.remeasure with
        | some d => if d = 0 then st.total else st.total + d
        | none => st.total
      skipped := st.skipped }
  | none => { st with skipped := st.skipped + 1 }

/-- The selection loop with its early exit
(`if total_duration >= target_duration: break`). -/
def planLoop (tgt : ℚ) : PlanState → List ClipEnv → PlanState
  | st, [] => st
  | st, env :: rest =>
    let st1 := planStep st env
    if tgt ≤ st1.total then st1 else planLoop tgt st1 rest

/-- The planner as run by `main`: loop from the empty plan state over
the sampled files. -/
def runPlanner (tgt : ℚ) (envs : List ClipEnv) : PlanState :=
  planLoop tgt ⟨[], 0, 0⟩ envs

/-- Python `int()` on a real value: truncation toward zero. -/
def pyTrunc (q : ℚ) : ℤ := if 0 ≤ q then ⌊q⌋ else ⌈q⌉

/-- `avg_clip_duration = (CLIP_DURATION_RANGE[0] + CLIP_DURATION_RANGE[1]) / 2`. -/
def avg_clip_duration : ℚ := (CLIP_DURATION_RANGE.1 + CLIP_DURATION_RANGE.2) / 2

/-- `estimated_clips_needed = int(target_duration / avg_clip_duration) + 1`. -/
def estimated_clips_needed (tgt : ℚ) : ℤ := pyTrunc (tgt / avg_clip_duration) + 1

/-- `num_files_to_select = min(estimated_clips_needed, len(mp4_files))`. -/
def num_files_to_select (tgt : ℚ) (poolSize : ℕ) : ℤ :=
  if estimated_clips_needed tgt ≤ poolSize then estimated_clips_needed tgt
  else poolSize

/-! Calendar dates, filename date extraction and the date filter
(main.py lines 198-268, 371-386).  Python `datetime.date` values are
triples `(year, month, day)`; construction validates the day against
the month length, with `datetime.MINYEAR = 1`. -/

/-- Gregorian leap-year rule used by `datetime`. -/
def isLeapYear (y : ℕ) : Bool := y % 4 == 0 && (y % 100 != 0 || y % 400 == 0)

/-- Number of days of month `m` in year `y`. -/
def daysInMonth (y m : ℕ) : ℕ :=
  if m = 2 then (if isLeapYear y then 29 else 28)
  else if m = 4 ∨ m = 6 ∨ m = 9 ∨ m = 11 then 30
  else 31

/-- A `datetime.date` value. -/
structure Date where
  year : ℕ
  month : ℕ
  day : ℕ
deriving DecidableEq, Repr

/-- Strict comparison of dates (`<` on `datetime.date`). -/
def dateLt (a b : Date) : Bool :=
  a.year < b.year ||
    (a.year == b.year &&
      (a.month < b.month || (a.month == b.month && a.day < b.day)))

/-- `datetime.date(y, m, d)`: succeeds exactly when the triple is a
valid calendar date (year ≥ MINYEAR, month in 1..12, day in range). -/
def mkValidDate (y m d : ℕ) : Option Date :=
  if 1 ≤ y ∧ 1 ≤ m ∧ m ≤ 12 ∧ 1 ≤ d ∧ d ≤ daysInMonth y m then
    some ⟨y, m, d⟩
  else none

/-- Numeric value of a digit character. -/
def digitVal (c : Char) : ℕ := c.toNat - 48

/-- Decimal number denoted by a digit list. -/
def parseNatDigits (l : List Char) : ℕ :=
  l.foldl (fun acc c => acc * 10 + digitVal c) 0

/-- `os.path.basename`: the part of the path after the last slash. -/
def basename (s : String) : String :=
  String.mk ((s.toList.reverse.takeWhile (fun c => c ≠ '/')).reverse)

/-- Embedding of `extract_date_from_filename` (lines 198-211): if the
first 8 characters of the basename are digits, parse them as
`YYYYMMDD` via `strptime`; an invalid calendar date raises
`ValueError`, which the function turns into `None`. -/
def extract_date_from_filename (s : String) : Option Date :=
  let cs := (basename s).toList
  if 8 ≤ cs.length ∧ (cs.take 8).all Char.isDigit then
    mkValidDate (parseNatDigits (cs.take 4))
      (parseNatDigits ((cs.drop 4).take 2))
      (parseNatDigits ((cs.drop 6).take 2))
  else none

/-- Decision made by `filter_files_by_date_range` for one file: keep
when no date is extractable, or when the date violates neither bound. -/
def keepFile (startB endB : Option Date) (f : String) : Bool :=
  match extract_date_from_filename f with
  | none => true
  | some d =>
    (match startB with
     | some sd => !(dateLt d sd)
     | none => true) &&
    (match endB with
     | some ed => !(dateLt ed d)
     | none => true)

/-- Embedding of `filter_files_by_date_range` (lines 213-238). -/
def filter_files_by_date_range (files : List String)
    (startB endB : Option Date) : List String :=
  files.filter (keepFile startB endB)

/-- Whitespace stripping at character-list level (`str.strip()`). -/
def stripChars (cs : List Char) : List Char :=
  ((cs.dropWhile Char.isWhitespace).reverse.dropWhile Char.isWhitespace).reverse

/-- `strptime(s, '%Y-%m-%d')` under the `len == 10 and count('-') == 2`
precheck: only the canonical 4-2-2 digit layout can match. -/
def parseDashFull (cs : List Char) : Option Date :=
  match cs with
  | [a, b, c, d, h1, e, f, h2, g, i] =>
    if h1 = '-' ∧ h2 = '-' ∧ [a, b, c, d, e, f, g, i].all Char.isDigit then
      mkValidDate (parseNatDigits [a, b, c, d]) (parseNatDigits [e, f])
        (parseNatDigits [g, i])
    else none
  | _ => none

/-- `strptime(s, '%Y-%m')` under the `len == 7 and count('-') == 1`
precheck: canonical 4-dash-2 layout, day defaults to 1. -/
def parseDashMonth (cs : List Char) : Option Date :=
  match cs with
  | [a, b, c, d, h, e, f] =>
    if h = '-' ∧ [a, b, c, d, e, f].all Char.isDigit then
      mkValidDate (parseNatDigits [a, b, c, d]) (parseNatDigits [e, f]) 1
    else none
  | _ => none

/-- Embedding of `parse_date_input` (lines 240-268); `none` stands for
the `ValueError` raised on an unsupported or invalid date string. -/
def parse_date_input (s : String) : Option Date :=
  let cs := stripChars s.toList
  if cs.length = 10 ∧ cs.count '-' = 2 then parseDashFull cs
  else if cs.length = 7 ∧ cs.count '-' = 1 then parseDashMonth cs
  else if cs.length = 8 ∧ cs.all Char.isDigit then
    mkValidDate (parseNatDigits (cs.take 4))
      (parseNatDigits ((cs.drop 4).take 2)) (parseNatDigits (cs.drop 6))
  else if cs.length = 6 ∧ cs.all Char.isDigit then
    mkValidDate (parseNatDigits (cs.take 4)) (parseNatDigits (cs.drop 4)) 1
  else none

/-- `date - timedelta(days=1)`. -/
def predDate (d : Date) : Date :=
  if 1 < d.day then ⟨d.year, d.month, d.day - 1⟩
  else if 1 < d.month then ⟨d.year, d.month - 1, daysInMonth d.year (d.month - 1)⟩
  else ⟨d.year - 1, 12, 31⟩

/-- The `--month` expansion of `parse_arguments` (lines 371-383):
start is the month's day 1, end is the day before the first day of the
following month (rolling the year over after December). -/
def monthExpand (md : Date) : Date × Date :=
  let startD : Date := ⟨md.year, md.month, 1⟩
  let nextMonth : Date :=
    if md.month = 12 then ⟨md.year + 1, 1, 1⟩ else ⟨md.year, md.month + 1, 1⟩
  (startD, predDate nextMonth)

/-- Full `--month` pipeline: parse the month string, then expand. -/
def month_filter_bounds (s : String) : Option (Date × Date) :=
  (parse_date_input s).map monthExpand

/-! The Compiler step (`compile_clips`, lines 149-196), over an
abstract file system modelled as the list of existing paths.  The two
ffmpeg-related outcomes are oracle booleans: `concatOk` is whether the
concat subprocess exits 0, `produceOk` whether the output file exists
and is non-empty afterwards. -/

/-- `os.remove(p)` guarded by `os.path.exists(p)`. -/
def removeFile (fileSys : List String) (p : String) : List String :=
  fileSys.filter (fun q => q ≠ p)

/-- Embedding of `compile_clips`: returns the success/error outcome
together with the final file-system state.  With an empty clip list the
function raises before writing the manifest; otherwise it writes
`clips.txt`, runs ffmpeg, and the `finally` block removes the manifest
and every clip file on success and on every error path alike. -/
def compile_clips (clips : List String) (outputPath : String)
    (concatOk produceOk : Bool) (fileSys : List String) :
    Except String Unit × List String :=
  if clips.isEmpty then (Except.error "No clips to compile", fileSys)
  else
    let fs1 := "clips.txt" :: fileSys
    let fs2 := if concatOk && produceOk then outputPath :: fs1 else fs1
    let result : Except String Unit :=
      if !concatOk then Except.error "Failed to compile clips"
      else if !produceOk then Except.error "Output file is missing or empty"
      else Except.ok ()
    (result, clips.foldl removeFile (removeFile fs2 "clips.txt"))

/-! Duration validation (`validate_duration`, lines 43-51) and the way
`parse_arguments` (lines 414-419) resolves the target duration: a
`--duration` given on the command line is used as-is; only when it is
absent does the interactive prompt loop run `validate_duration` until
an input passes.  A prompt attempt is `none` when `float(value)`
raises, `some q` when it parses to `q`. -/

/-- Embedding of `validate_duration`: the inner `ValueError` for a
non-positive value is caught by the `except` clause and re-raised with
the generic message. -/
def validate_duration (parsed : Option ℚ) : Except String ℚ :=
  match parsed with
  | none => Except.error "Duration must be a positive number"
  | some d =>
    if d ≤ 0 then Except.error "Duration must be a positive number"
    else Except.ok d

/-- The `get_user_input` retry loop specialised to `validate_duration`:
the first attempt that validates is returned (`none` when the supplied
attempt list is exhausted; the real loop would keep prompting). -/
def firstValidDuration : List (Option ℚ) → Option ℚ
  | [] => none
  | attempt :: rest =>
    match validate_duration attempt with
    | Except.ok d => some d
    | Except.error _ => firstValidDuration rest

/-- How `parse_arguments` obtains the target duration handed to
`main`: the command-line value bypasses validation entirely. -/
def resolveDuration (cliDuration : Option ℚ) (prompts : List (Option ℚ)) :
    Option ℚ :=
  match cliDuration with
  | some d => some d
  | none => firstValidDuration prompts

end Dashcam


namespace Dashcam

/-! Helper lemmas about the selection loop. -/

theorem planLoop_nil (tgt : ℚ) (st : PlanState) : planLoop tgt st [] = st := rfl

theorem planLoop_cons (tgt : ℚ) (st : PlanState) (env : ClipEnv)
    (rest : List ClipEnv) :
    planLoop tgt st (env :: rest) =
      (if tgt ≤ (planStep st env).total then planStep st env
       else planLoop tgt (planStep st env) rest) := rfl

theorem planStep_clips_cases (st : PlanState) (env : ClipEnv) :
    ∃ l, (planStep st env).clips = st.clips ++ l := by
  unfold planStep
  cases hc : get_random_clip env CLIP_DURATION_RANGE with
  | none => exact ⟨[], by simp⟩
  | some p => exact ⟨[⟨p.1, p.2, env.remeasure⟩], rfl⟩

theorem planStep_count (st : PlanState) (env : ClipEnv) :
    (planStep st env).clips.length + (planStep st env).skipped =
      st.clips.length + st.skipped + 1 := by
  unfold planStep
  cases hc : get_random_clip env CLIP_DURATION_RANGE with
  | none => simp; omega
  | some p => simp; omega

theorem planLoop_clips_append (tgt : ℚ) :
    ∀ (envs : List ClipEnv) (st : PlanState),
      ∃ l, (planLoop tgt st envs).clips = st.clips ++ l := by
  intro envs
  induction envs with
  | nil => exact fun st => ⟨[], by simp [planLoop_nil]⟩
  | cons env rest ih =>
    intro st
    rw [planLoop_cons]
    by_cases hb : tgt ≤ (planStep st env).total
    · simp only [if_pos hb]
      exact planStep_clips_cases st env
    · simp only [if_neg hb]
      obtain ⟨l0, h0⟩ := planStep_clips_cases st env
      obtain ⟨l1, h1⟩ := ih (planStep st env)
      exact ⟨l0 ++ l1, by rw [h1, h0, List.append_assoc]⟩

theorem planLoop_all_skipped (tgt : ℚ) :
    ∀ (envs : List ClipEnv) (st : PlanState), st.total < tgt →
      (planLoop tgt st envs).clips = [] →
      st.clips = [] ∧
        (planLoop tgt st envs).skipped = st.skipped + envs.length ∧
        (planLoop tgt st envs).total = st.total := by
  intro envs
  induction envs with
  | nil => intro st _ hnil; simpa [planLoop_nil] using hnil
  | cons env rest ih =>
    intro st hlt hnil
    rw [planLoop_cons] at hnil ⊢
    cases hc : get_random_clip env CLIP_DURATION_RANGE with
    | some p =>
      exfalso
      have hstep : (planStep st env).clips = st.clips ++ [⟨p.1, p.2, env.remeasure⟩] := by
        unfold planStep; rw [hc]
      by_cases hb : tgt ≤ (planStep st env).total
      · rw [if_pos hb, hstep] at hnil
        simp at hnil
      · rw [if_neg hb] at hnil
        obtain ⟨l1, h1⟩ := planLoop_clips_append tgt rest (planStep st env)
        rw [h1, hstep] at hnil
        simp at hnil
    | none =>
      have hstep : planStep st env = { st with skipped := st.skipped + 1 } := by
        unfold planStep; rw [hc]
      have hb : ¬ tgt ≤ (planStep st env).total := by
        rw [hstep]; exact not_le.mpr hlt
      rw [if_neg hb] at hnil ⊢
      rw [hstep] at hnil ⊢
      obtain ⟨hcl, hsk, hto⟩ := ih _ (by simpa using hlt) hnil
      refine ⟨by simpa using hcl, ?_, by simpa using hto⟩
      rw [hsk]
      simp
      omega

theorem planLoop_total_or_exhaust (tgt : ℚ) :
    ∀ (envs : List ClipEnv) (st : PlanState),
      tgt ≤ (planLoop tgt st envs).total ∨
        (planLoop tgt st envs).clips.length + (planLoop tgt st envs).skipped =
          st.clips.length + st.skipped + envs.length := by
  intro envs
  induction envs with
  | nil => intro st; right; simp [planLoop_nil]
  | cons env rest ih =>
    intro st
    rw [planLoop_cons]
    by_cases hb : tgt ≤ (planStep st env).total
    · rw [if_pos hb]; left; exact hb
    · rw [if_neg hb]
      rcases ih (planStep st env) with h | h
      · left; exact h
      · right
        rw [h, planStep_count]
        simp
        omega

end Dashcam

namespace Dashcam

/-- C1 counterexample: the claim as stated is false.  With target 20s,
six sampled files of 10s each (no file-too-short anomaly, every probe,
extraction and re-measurement succeeding) and every uniform length
draw hitting the low end of the range (3s), the loop exhausts the
sampled list with six accepted clips totalling 18s < 20s and raises no
error, so neither disjunct of the claim holds. -/
theorem c1_counterexample :
    ¬ (∀ (tgt : ℚ) (envs : List ClipEnv), envs ≠ [] → 0 < tgt →
        (∀ env ∈ envs, ∀ d, env.srcDuration = some d → 3 ≤ d) →
        ((runPlanner tgt envs).clips ≠ [] ∧ tgt ≤ (runPlanner tgt envs).total) ∨
          ((runPlanner tgt envs).clips = [] ∧
            (runPlanner tgt envs).skipped = envs.length)) := by
  intro h
  have heval :
      runPlanner 20
        [⟨some 10, 0, 0, true, some 3⟩, ⟨some 10, 0, 0, true, some 3⟩,
         ⟨some 10, 0, 0, true, some 3⟩, ⟨some 10, 0, 0, true, some 3⟩,
         ⟨some 10, 0, 0, true, some 3⟩, ⟨some 10, 0, 0, true, some 3⟩] =
      ⟨[⟨0, 3, some 3⟩, ⟨0, 3, some 3⟩, ⟨0, 3, some 3⟩, ⟨0, 3, some 3⟩,
        ⟨0, 3, some 3⟩, ⟨0, 3, some 3⟩], 18, 0⟩ := by
    norm_num [runPlanner, planLoop, planStep, get_random_clip,
      CLIP_DURATION_RANGE]
  have h6 := h 20
      [⟨some 10, 0, 0, true, some 3⟩, ⟨some 10, 0, 0, true, some 3⟩,
       ⟨some 10, 0, 0, true, some 3⟩, ⟨some 10, 0, 0, true, some 3⟩,
       ⟨some 10, 0, 0, true, some 3⟩, ⟨some 10, 0, 0, true, some 3⟩]
      (by simp) (by norm_num) ?_
  · rcases h6 with ⟨-, hge⟩ | ⟨hnil, -⟩
    · rw [heval] at hge
      norm_num at hge
    · rw [heval] at hnil
      simp at hnil
  · intro env henv d hd
    have he : env = ⟨some 10, 0, 0, true, some 3⟩ := by
      simp only [List.mem_cons, List.not_mem_nil, or_false, or_self] at henv
      exact henv
    rw [he] at hd
    simp only [ClipEnv.srcDuration] at hd
    rw [show d = 10 from (Option.some.inj hd).symm]
    norm_num

/-- C1 (amended): for every positive target duration, the planning
loop raises the "no valid clips" error only when every sampled file
was skipped, and it either accumulates a running total of at least the
target duration or processes the whole sampled list (the accepted-clip
count plus the skip count equalling the number of sampled files); the
total may fall short of the target when the sampled list is exhausted. -/
theorem c1_amended (tgt : ℚ) (envs : List ClipEnv) (htgt : 0 < tgt) :
    ((runPlanner tgt envs).clips = [] →
      (runPlanner tgt envs).skipped = envs.length) ∧
    (tgt ≤ (runPlanner tgt envs).total ∨
      (runPlanner tgt envs).clips.length + (runPlanner tgt envs).skipped =
        envs.length) := by
  constructor
  · intro hnil
    have h0 : (⟨[], 0, 0⟩ : PlanState).total < tgt := htgt
    have := planLoop_all_skipped tgt envs ⟨[], 0, 0⟩ h0 hnil
    simpa [runPlanner] using this.2.1
  · have := planLoop_total_or_exhaust tgt envs ⟨[], 0, 0⟩
    simpa [runPlanner] using this

/-- Witness for C1 (amended) at target 20 with a single successful 4s
clip: the loop processes the whole one-element sampled list. -/
theorem c1_amended_witness :
    ((runPlanner 20 [⟨some 10, 0, 0, true, some 4⟩]).clips = [] →
      (runPlanner 20 [⟨some 10, 0, 0, true, some 4⟩]).skipped = 1) ∧
    (20 ≤ (runPlanner 20 [⟨some 10, 0, 0, true, some 4⟩]).total ∨
      (runPlanner 20 [⟨some 10, 0, 0, true, some 4⟩]).clips.length +
        (runPlanner 20 [⟨some 10, 0, 0, true, some 4⟩]).skipped = 1) := by
  simpa using c1_amended 20 [⟨some 10, 0, 0, true, some 4⟩] (by norm_num)

end Dashcam

namespace Dashcam

/-- C2 counterexample: the claim as stated is false.  When extraction
succeeds but the re-measurement probe on the produced clip fails
(`get_video_duration(clip)` returns None), the clip is still appended
to the accepted list while no re-measured duration exists to be added:
the running total is left unchanged. -/
theorem c2_counterexample :
    ¬ (∀ (st : PlanState) (env : ClipEnv) (p : ℚ × ℚ),
        get_random_clip env CLIP_DURATION_RANGE = some p →
        ∃ d, env.remeasure = some d ∧
          (planStep st env).clips = st.clips ++ [⟨p.1, p.2, env.remeasure⟩] ∧
          (planStep st env).total = st.total + d) := by
  intro h
  have hg : get_random_clip ⟨some 10, 0, 0, true, none⟩ CLIP_DURATION_RANGE =
      some (0, 3) := by
    norm_num [get_random_clip, CLIP_DURATION_RANGE]
  obtain ⟨d, hd, -⟩ := h ⟨[], 0, 0⟩ ⟨some 10, 0, 0, true, none⟩ (0, 3) hg
  exact Option.noConfusion hd

/-- C2 (amended): for every selected file whose extraction succeeds,
the clip is appended to the accepted list unconditionally; the running
total gains the clip's re-measured duration when the re-measurement
yields one (a value of 0 contributes nothing, which coincides with
adding 0), and is left unchanged when the re-measurement fails. -/
theorem c2_amended (st : PlanState) (env : ClipEnv) (p : ℚ × ℚ)
    (hg : get_random_clip env CLIP_DURATION_RANGE = some p) :
    (planStep st env).clips = st.clips ++ [⟨p.1, p.2, env.remeasure⟩] ∧
    (planStep st env).total =
      st.total + (match env.remeasure with | some d => d | none => 0) ∧
    (planStep st env).skipped = st.skipped := by
  unfold planStep
  rw [hg]
  refine ⟨rfl, ?_, rfl⟩
  cases hr : env.remeasure with
  | none => simp
  | some d =>
    by_cases hd : d = 0
    · simp [hd]
    · simp [hd]

/-- Witness for C2 (amended): a successful 3s cut whose re-probe
reports 14/5 s is appended and contributes exactly 14/5 s. -/
theorem c2_amended_witness :
    (planStep ⟨[], 0, 0⟩ ⟨some 10, 0, 0, true, some (14/5)⟩).clips =
      [⟨0, 3, some (14/5)⟩] ∧
    (planStep ⟨[], 0, 0⟩ ⟨some 10, 0, 0, true, some (14/5)⟩).total = 14/5 ∧
    (planStep ⟨[], 0, 0⟩ ⟨some 10, 0, 0, true, some (14/5)⟩).skipped = 0 := by
  have h := c2_amended ⟨[], 0, 0⟩ ⟨some 10, 0, 0, true, some (14/5)⟩ (0, 3)
    (by norm_num [get_random_clip, CLIP_DURATION_RANGE])
  refine ⟨by simpa using h.1, ?_, h.2.2⟩
  have := h.2.1
  simpa using this

/-- C9: each iteration of the selection loop leaves the running total
and the skip counter unchanged or increased, provided every duration
the re-measurement probe reports is non-negative (probed durations are
playable lengths in seconds): the running total is monotonically
non-decreasing and the skip count never decreases. -/
theorem c9_plan_state_monotone (st : PlanState) (env : ClipEnv)
    (hpos : ∀ d, env.remeasure = some d → 0 ≤ d) :
    st.total ≤ (planStep st env).total ∧
      st.skipped ≤ (planStep st env).skipped := by
  unfold planStep
  cases hc : get_random_clip env CLIP_DURATION_RANGE with
  | none => exact ⟨le_refl _, Nat.le_succ _⟩
  | some p =>
    refine ⟨?_, le_refl _⟩
    cases hr : env.remeasure with
    | none => simp
    | some d =>
      by_cases hd : d = 0
      · simp [hd]
      · simp only [if_neg hd]
        have := hpos d hr
        linarith

/-- Witness for C9 at a concrete iteration: a skip (probe failure)
and, via the same theorem, an accepted 4s clip. -/
theorem c9_plan_state_monotone_witness :
    ((⟨[], 5, 1⟩ : PlanState).total ≤
        (planStep ⟨[], 5, 1⟩ ⟨none, 0, 0, true, none⟩).total ∧
      (⟨[], 5, 1⟩ : PlanState).skipped ≤
        (planStep ⟨[], 5, 1⟩ ⟨none, 0, 0, true, none⟩).skipped) ∧
    ((⟨[], 5, 1⟩ : PlanState).total ≤
        (planStep ⟨[], 5, 1⟩ ⟨some 10, 0, 0, true, some 4⟩).total ∧
      (⟨[], 5, 1⟩ : PlanState).skipped ≤
        (planStep ⟨[], 5, 1⟩ ⟨some 10, 0, 0, true, some 4⟩).skipped) := by
  constructor
  · exact c9_plan_state_monotone ⟨[], 5, 1⟩ ⟨none, 0, 0, true, none⟩
      (by intro d hd; exact Option.noConfusion hd)
  · exact c9_plan_state_monotone ⟨[], 5, 1⟩ ⟨some 10, 0, 0, true, some 4⟩
      (by intro d hd; rw [show d = 4 from (Option.some.inj hd).symm]; norm_num)

end Dashcam

namespace Dashcam

/-- C3: for every source file whose probe succeeds with duration at
least the minimum per-clip length, and uniform draws within their
ranges, a produced clip's requested length lies in the configured
range [3, 5] clamped to the file's duration, and the chosen start
offset plus the length never exceeds the file's duration. -/
theorem c3_clip_bounds (env : ClipEnv) (d startT len : ℚ)
    (hsrc : env.srcDuration = some d)
    (hl0 : 0 ≤ env.tLen) (hl1 : env.tLen ≤ 1)
    (hs0 : 0 ≤ env.tStart) (hs1 : env.tStart ≤ 1)
    (hg : get_random_clip env CLIP_DURATION_RANGE = some (startT, len)) :
    3 ≤ len ∧ len ≤ 5 ∧ len ≤ d ∧ 0 ≤ startT ∧ startT + len ≤ d := by
  unfold get_random_clip at hg
  rw [hsrc] at hg
  simp only [CLIP_DURATION_RANGE] at hg
  by_cases hshort : d < 3
  · rw [if_pos hshort] at hg
    exact Option.noConfusion hg
  · rw [if_neg hshort] at hg
    push_neg at hshort
    cases hok : env.extractOk with
    | false =>
      rw [hok] at hg
      simp at hg
    | true =>
      rw [hok] at hg
      simp only [if_true] at hg
      obtain ⟨hst, hlen⟩ := Prod.mk.injEq .. ▸ Option.some.inj hg
      have hlen0lo : (3:ℚ) ≤ 3 + env.tLen * (5 - 3) := by nlinarith
      have hlen0hi : (3:ℚ) + env.tLen * (5 - 3) ≤ 5 := by nlinarith
      by_cases hcl : (3:ℚ) + env.tLen * (5 - 3) ≤ d
      · rw [if_pos hcl] at hst hlen
        have h3 : 3 ≤ len := by rw [← hlen]; exact hlen0lo
        have h5 : len ≤ 5 := by rw [← hlen]; exact hlen0hi
        have hld : len ≤ d := by rw [← hlen]; exact hcl
        have hstart0 : 0 ≤ startT := by
          rw [← hst]
          have : 0 ≤ d - (3 + env.tLen * (5 - 3)) := by linarith
          exact mul_nonneg hs0 this
        have hstartlen : startT + len ≤ d := by
          rw [← hst, ← hlen]
          nlinarith
        exact ⟨h3, h5, hld, hstart0, hstartlen⟩
      · rw [if_neg hcl] at hst hlen
        push_neg at hcl
        have h3 : 3 ≤ len := by rw [← hlen]; exact hshort
        have h5 : len ≤ 5 := by rw [← hlen]; linarith
        have hld : len ≤ d := le_of_eq hlen.symm
        have hstart0 : 0 ≤ startT := by
          rw [← hst]
          have : (0:ℚ) ≤ d - d := by linarith
          exact mul_nonneg hs0 this
        have hstartlen : startT + len ≤ d := by
          rw [← hst, ← hlen]
          nlinarith
        exact ⟨h3, h5, hld, hstart0, hstartlen⟩

/-- Witness for C3: a 4s file (shorter than the top of the range) with
mid-range draws; the requested clip is clamped to the file length. -/
theorem c3_clip_bounds_witness :
    3 ≤ (4:ℚ) ∧ (4:ℚ) ≤ 5 ∧ (4:ℚ) ≤ 4 ∧ (0:ℚ) ≤ 0 ∧ (0:ℚ) + 4 ≤ 4 := by
  exact c3_clip_bounds ⟨some 4, 1/2, 1/2, true, some 4⟩ 4 0 4 rfl
    (by norm_num) (by norm_num) (by norm_num) (by norm_num)
    (by norm_num [get_random_clip, CLIP_DURATION_RANGE])

end Dashcam

namespace Dashcam

/-- C4: for every positive target duration, the number of files drawn
from the candidate pool is the target duration divided by the midpoint
of the per-clip range (4), rounded down then increased by one, capped
at the pool size; in particular, for target duration 20 at most 6
files are selected. -/
theorem c4_num_files (tgt : ℚ) (n : ℕ) (htgt : 0 < tgt) :
    num_files_to_select tgt n = min (⌊tgt / 4⌋ + 1) (n : ℤ) ∧
    num_files_to_select 20 n ≤ 6 := by
  have havg : avg_clip_duration = 4 := by
    norm_num [avg_clip_duration, CLIP_DURATION_RANGE]
  have hest : estimated_clips_needed tgt = ⌊tgt / 4⌋ + 1 := by
    unfold estimated_clips_needed pyTrunc
    rw [havg, if_pos (by positivity)]
  have h20 : estimated_clips_needed 20 = 6 := by
    unfold estimated_clips_needed pyTrunc
    rw [havg, if_pos (by norm_num),
      show ((20:ℚ)/4) = ((5:ℤ):ℚ) by norm_num, Int.floor_intCast]
    norm_num
  constructor
  · unfold num_files_to_select
    rw [hest]
    split_ifs with h
    · exact (min_eq_left h).symm
    · push_neg at h
      exact (min_eq_right h.le).symm
  · unfold num_files_to_select
    rw [h20]
    split_ifs with h
    · norm_num
    · omega

/-- Witness for C4 at target 20 with a pool of 10 candidates: exactly
6 = min(floor(20/4)+1, 10) files are drawn. -/
theorem c4_num_files_witness :
    num_files_to_select 20 10 = min (⌊(20:ℚ) / 4⌋ + 1) (10:ℤ) ∧
    num_files_to_select 20 10 ≤ 6 :=
  c4_num_files 20 10 (by norm_num)

end Dashcam

namespace Dashcam

/-- Characterisation of the per-file decision of the date filter. -/
theorem keepFile_iff (startB endB : Option Date) (f : String) :
    keepFile startB endB f = true ↔
      (extract_date_from_filename f = none ∨
        ∃ d, extract_date_from_filename f = some d ∧
          (∀ sd, startB = some sd → dateLt d sd = false) ∧
          (∀ ed, endB = some ed → dateLt ed d = false)) := by
  cases hx : extract_date_from_filename f with
  | none => simp [keepFile, hx]
  | some d =>
    cases startB with
    | none =>
      cases endB with
      | none => simp [keepFile, hx]
      | some ed => simp [keepFile, hx]
    | some sd =>
      cases endB with
      | none => simp [keepFile, hx]
      | some ed => simp [keepFile, hx]

/-- C5: the date filter retains a file if and only if it occurs in the
input list and either no date is extractable from its filename
(fail-open), or its extracted date is not before the start bound (when
present) and not after the end bound (when present); a file is dropped
exactly when it has a parseable date strictly outside a given bound. -/
theorem c5_date_filter (files : List String) (startB endB : Option Date)
    (f : String) :
    f ∈ filter_files_by_date_range files startB endB ↔
      f ∈ files ∧
        (extract_date_from_filename f = none ∨
          ∃ d, extract_date_from_filename f = some d ∧
            (∀ sd, startB = some sd → dateLt d sd = false) ∧
            (∀ ed, endB = some ed → dateLt ed d = false)) := by
  unfold filter_files_by_date_range
  rw [List.mem_filter, keepFile_iff]

/-- Witness for C5: a dated file inside the bounds and an undated file
are both retained; a dated file before the start bound is dropped. -/
theorem c5_date_filter_witness :
    "20240215_a.mp4" ∈
      filter_files_by_date_range
        ["20240110_b.mp4", "20240215_a.mp4", "nodate.mp4"]
        (some ⟨2024, 2, 1⟩) (some ⟨2024, 2, 29⟩) ∧
    "nodate.mp4" ∈
      filter_files_by_date_range
        ["20240110_b.mp4", "20240215_a.mp4", "nodate.mp4"]
        (some ⟨2024, 2, 1⟩) (some ⟨2024, 2, 29⟩) ∧
    "20240110_b.mp4" ∉
      filter_files_by_date_range
        ["20240110_b.mp4", "20240215_a.mp4", "nodate.mp4"]
        (some ⟨2024, 2, 1⟩) (some ⟨2024, 2, 29⟩) := by
  refine ⟨?_, ?_, ?_⟩
  · exact (c5_date_filter _ _ _ _).mpr
      ⟨by decide, Or.inr ⟨⟨2024, 2, 15⟩, by decide,
        fun sd hsd => by rw [← Option.some.inj hsd]; decide,
        fun ed hed => by rw [← Option.some.inj hed]; decide⟩⟩
  · exact (c5_date_filter _ _ _ _).mpr ⟨by decide, Or.inl (by decide)⟩
  · intro hmem
    rcases ((c5_date_filter _ _ _ _).mp hmem).2 with hnone | ⟨d, hd, hs, -⟩
    · exact absurd hnone (by decide)
    · have hdd : d = ⟨2024, 1, 10⟩ := by
        have : extract_date_from_filename "20240110_b.mp4" =
            some ⟨2024, 1, 10⟩ := by decide
        rw [this] at hd
        exact (Option.some.inj hd).symm
      have := hs ⟨2024, 2, 1⟩ rfl
      rw [hdd] at this
      exact absurd this (by decide)

/-- C10: for every filename whose basename starts with 8 digit
characters that do not form a valid calendar date, date extraction
returns no date rather than raising, and the date filter therefore
retains the file regardless of the bounds given. -/
theorem c10_invalid_embedded_date (s : String) (files : List String)
    (startB endB : Option Date)
    (hlen : 8 ≤ ((basename s).toList).length)
    (hdig : (((basename s).toList).take 8).all Char.isDigit = true)
    (hbad : mkValidDate (parseNatDigits (((basename s).toList).take 4))
        (parseNatDigits ((((basename s).toList).drop 4).take 2))
        (parseNatDigits ((((basename s).toList).drop 6).take 2)) = none) :
    extract_date_from_filename s = none ∧
      (s ∈ files → s ∈ filter_files_by_date_range files startB endB) := by
  have hx : extract_date_from_filename s = none := by
    simp only [extract_date_from_filename]
    rw [if_pos ⟨hlen, hdig⟩]
    exact hbad
  refine ⟨hx, fun hmem => ?_⟩
  unfold filter_files_by_date_range
  rw [List.mem_filter]
  exact ⟨hmem, by simp [keepFile, hx]⟩

/-- Witness for C10: "20241332_clip.mp4" has an all-digit 8-character
prefix but month 13 / day 32; it is retained despite tight bounds. -/
theorem c10_invalid_embedded_date_witness :
    extract_date_from_filename "20241332_clip.mp4" = none ∧
      ("20241332_clip.mp4" ∈ ["20241332_clip.mp4"] →
        "20241332_clip.mp4" ∈
          filter_files_by_date_range ["20241332_clip.mp4"]
            (some ⟨2024, 1, 1⟩) (some ⟨2024, 1, 2⟩)) :=
  c10_invalid_embedded_date "20241332_clip.mp4" ["20241332_clip.mp4"]
    (some ⟨2024, 1, 1⟩) (some ⟨2024, 1, 2⟩)
    (by decide) (by decide) (by decide)

end Dashcam

namespace Dashcam

/-- A successfully constructed date is the given triple, with the
month within 1..12. -/
theorem mkValidDate_some (y m d : ℕ) (dd : Date)
    (h : mkValidDate y m d = some dd) :
    dd = ⟨y, m, d⟩ ∧ 1 ≤ dd.month ∧ dd.month ≤ 12 := by
  unfold mkValidDate at h
  split_ifs at h with hc
  obtain rfl := (Option.some.inj h).symm
  exact ⟨rfl, hc.2.1, hc.2.2.1⟩

/-- Every date produced by `parse_date_input` has a month in 1..12. -/
theorem parse_date_input_month_bounds (s : String) (dd : Date)
    (h : parse_date_input s = some dd) :
    1 ≤ dd.month ∧ dd.month ≤ 12 := by
  simp only [parse_date_input] at h
  split_ifs at h with h1 h2 h3 h4
  · unfold parseDashFull at h
    split at h
    · split_ifs at h with hc
      · exact (mkValidDate_some _ _ _ _ h).2
    · exact Option.noConfusion h
  · unfold parseDashMonth at h
    split at h
    · split_ifs at h with hc
      · exact (mkValidDate_some _ _ _ _ h).2
    · exact Option.noConfusion h
  · exact (mkValidDate_some _ _ _ _ h).2
  · exact (mkValidDate_some _ _ _ _ h).2

/-- C6: for every month input accepted by `parse_date_input`, the
`--month` shorthand expands to a start date on the first calendar day
of that month and an end date on its last calendar day, the year
rolling over after December without error. -/
theorem c6_month_expansion (s : String) (y m d0 : ℕ)
    (h : parse_date_input s = some ⟨y, m, d0⟩) :
    monthExpand ⟨y, m, d0⟩ = (⟨y, m, 1⟩, ⟨y, m, daysInMonth y m⟩) ∧
    month_filter_bounds s = some (⟨y, m, 1⟩, ⟨y, m, daysInMonth y m⟩) := by
  obtain ⟨hm1, hm12⟩ := parse_date_input_month_bounds s ⟨y, m, d0⟩ h
  simp only at hm1 hm12
  have hexp : monthExpand ⟨y, m, d0⟩ = (⟨y, m, 1⟩, ⟨y, m, daysInMonth y m⟩) := by
    unfold monthExpand
    by_cases h12 : m = 12
    · subst h12
      simp only [if_pos rfl]
      unfold predDate
      norm_num [daysInMonth]
    · rw [if_neg h12]
      unfold predDate
      have hgt : 1 < m + 1 := by omega
      norm_num [hgt]
  refine ⟨hexp, ?_⟩
  unfold month_filter_bounds
  rw [h, Option.map_some', hexp]

/-- Witness for C6 at the spec's two examples: February 2024 (leap
year) and December 2024 (year rollover). -/
theorem c6_month_expansion_witness :
    (monthExpand ⟨2024, 2, 1⟩ = (⟨2024, 2, 1⟩, ⟨2024, 2, 29⟩) ∧
      month_filter_bounds "2024-02" = some (⟨2024, 2, 1⟩, ⟨2024, 2, 29⟩)) ∧
    (monthExpand ⟨2024, 12, 1⟩ = (⟨2024, 12, 1⟩, ⟨2024, 12, 31⟩) ∧
      month_filter_bounds "2024-12" = some (⟨2024, 12, 1⟩, ⟨2024, 12, 31⟩)) := by
  constructor
  · have h := c6_month_expansion "2024-02" 2024 2 1 (by decide)
    rw [show daysInMonth 2024 2 = 29 from by decide] at h
    exact h
  · have h := c6_month_expansion "2024-12" 2024 12 1 (by decide)
    rw [show daysInMonth 2024 12 = 31 from by decide] at h
    exact h

end Dashcam

namespace Dashcam

/-- Removing a path removes it from the file system. -/
theorem not_mem_removeFile_self (fileSys : List String) (p : String) :
    p ∉ removeFile fileSys p := by
  unfold removeFile
  intro hp
  have := List.of_mem_filter hp
  simp at this

/-- Removal never introduces a path. -/
theorem not_mem_removeFile (fileSys : List String) (p x : String)
    (h : x ∉ fileSys) : x ∉ removeFile fileSys p := by
  intro hx
  exact h (List.mem_of_mem_filter hx)

/-- A path absent before a batch of removals is absent after it. -/
theorem not_mem_foldl_removeFile (l : List String) :
    ∀ (fileSys : List String) (x : String), x ∉ fileSys →
      x ∉ l.foldl removeFile fileSys := by
  induction l with
  | nil => intro fileSys x h; simpa using h
  | cons p rest ih =>
    intro fileSys x h
    simp only [List.foldl_cons]
    exact ih _ x (not_mem_removeFile fileSys p x h)

/-- Every path in the removal batch is absent afterwards. -/
theorem mem_not_mem_foldl_removeFile (l : List String) :
    ∀ (fileSys : List String) (x : String), x ∈ l →
      x ∉ l.foldl removeFile fileSys := by
  induction l with
  | nil => intro fileSys x h; simp at h
  | cons p rest ih =>
    intro fileSys x h
    simp only [List.foldl_cons]
    rcases List.mem_cons.mp h with rfl | hr
    · exact not_mem_foldl_removeFile rest (removeFile fileSys x) x
        (not_mem_removeFile_self fileSys x)
    · exact ih _ x hr

/-- C7: on every completion of the compilation step — success,
concatenation failure, or missing/empty output — the intermediate
manifest `clips.txt` and every clip file in the accepted list are
absent from the resulting file system: the `finally` cleanup runs
unconditionally (the manifest is never created when the accepted list
is empty, the one path that raises before the manifest is written). -/
theorem c7_cleanup (clips : List String) (outputPath : String)
    (concatOk produceOk : Bool) (fileSys : List String)
    (hman : "clips.txt" ∉ fileSys) :
    "clips.txt" ∉ (compile_clips clips outputPath concatOk produceOk fileSys).2 ∧
      ∀ c ∈ clips, c ∉ (compile_clips clips outputPath concatOk produceOk fileSys).2 := by
  unfold compile_clips
  by_cases hnil : clips.isEmpty
  · rw [if_pos hnil]
    refine ⟨hman, fun c hc => ?_⟩
    rw [List.isEmpty_iff] at hnil
    rw [hnil] at hc
    simp at hc
  · rw [if_neg hnil]
    constructor
    · exact not_mem_foldl_removeFile clips _ _ (not_mem_removeFile_self _ _)
    · intro c hc
      exact mem_not_mem_foldl_removeFile clips _ c hc

/-- Witness for C7 on a concrete failing compilation: one accepted
clip, concatenation failing; both the manifest and the clip are gone. -/
theorem c7_cleanup_witness :
    "clips.txt" ∉
      (compile_clips ["temp_clip_1234.mp4"] "output/compiled-video.mp4"
        false false ["temp_clip_1234.mp4", "src.mp4"]).2 ∧
      ∀ c ∈ ["temp_clip_1234.mp4"],
        c ∉ (compile_clips ["temp_clip_1234.mp4"] "output/compiled-video.mp4"
          false false ["temp_clip_1234.mp4", "src.mp4"]).2 :=
  c7_cleanup ["temp_clip_1234.mp4"] "output/compiled-video.mp4" false false
    ["temp_clip_1234.mp4", "src.mp4"] (by decide)

/-- C8 counterexample: the claim as stated is false.  A duration
supplied on the command line bypasses `validate_duration` entirely:
with `--duration -5` the duration handed to the planner is -5, which
is not positive and is not rejected. -/
theorem c8_counterexample :
    ¬ (∀ (cliDuration : Option ℚ) (prompts : List (Option ℚ)) (d : ℚ),
        resolveDuration cliDuration prompts = some d → 0 < d) := by
  intro h
  have := h (some (-5)) [] (-5) rfl
  norm_num at this

/-- A duration returned by the interactive retry loop is positive. -/
theorem firstValidDuration_pos :
    ∀ (prompts : List (Option ℚ)) (d : ℚ),
      firstValidDuration prompts = some d → 0 < d := by
  intro prompts
  induction prompts with
  | nil => intro d h; exact Option.noConfusion h
  | cons a rest ih =>
    intro d h
    unfold firstValidDuration at h
    cases hv : validate_duration a with
    | ok v =>
      rw [hv] at h
      obtain rfl := (Option.some.inj h).symm
      cases a with
      | none =>
        simp only [validate_duration] at hv
        exact Except.noConfusion hv
      | some q =>
        simp only [validate_duration] at hv
        split_ifs at hv with hq
        push_neg at hq
        obtain rfl := (Except.ok.inj hv).symm
        exact hq
    | error e =>
      rw [hv] at h
      exact ih d h

/-- C8 (amended): a duration obtained through the interactive prompt
path is validated and always positive, and `validate_duration` rejects
every non-positive value with the "positive number" error; a duration
supplied via the `--duration` command-line flag bypasses this
validation and is used as-is. -/
theorem c8_amended :
    (∀ (prompts : List (Option ℚ)) (d : ℚ),
        resolveDuration none prompts = some d → 0 < d) ∧
    (∀ q : ℚ, q ≤ 0 →
        validate_duration (some q) =
          Except.error "Duration must be a positive number") := by
  constructor
  · intro prompts d h
    exact firstValidDuration_pos prompts d h
  · intro q hq
    simp only [validate_duration]
    rw [if_pos hq]

/-- Witness for C8 (amended): prompt input 5 is accepted as positive;
prompt input -3 is rejected. -/
theorem c8_amended_witness :
    0 < (5:ℚ) ∧
      validate_duration (some (-3)) =
        Except.error "Duration must be a positive number" := by
  refine ⟨c8_amended.1 [some 5] 5 ?_, c8_amended.2 (-3) (by norm_num)⟩
  show firstValidDuration [some 5] = some 5
  simp only [firstValidDuration, validate_duration]
  rw [if_neg (show ¬ (5:ℚ) ≤ 0 by norm_num)]

end Dashcam
